import Mathlib

/-
Verification of the BlendIQ soil blending optimization engine
(netlify/functions/optimizer.py and api/optimize.py, which contain
near-identical copies of the same core).

Conventions of the shallow embedding:
* Python floats are modelled as rationals (ℚ); np.nan (used purely as a
  "missing value" sentinel) and absent values are modelled as `none` of
  `Option ℚ`.
* Python dicts are modelled as association lists in insertion order; dict
  lookup is `List.lookup` (first match).
* A Python value that may be `None` is an `Option`; code that would raise a
  TypeError when arithmetic touches `None` is modelled as returning `none`
  (propagated as `Except.error` from `optimize_blend`).
* The SciPy solvers `minimize` (SLSQP) and `differential_evolution` are
  external library routines, not code of this repository; they are modelled
  as oracle functions `Config → SolverResult`.  Within one `optimize_blend`
  call everything passed to a solver (x0, bounds, constraints, materials,
  targets, limits) is fixed except the config that parameterizes the
  objective closure, so the config argument fully identifies which objective
  the solver was run with.
* Python string formatting of warnings is presentation; warnings are
  modelled as a structured `Warning` type carrying the same data.
-/

namespace BlendIQ

/-- Resolved or custom limits for one parameter: the pair of optional
lower/upper bounds (a Python dict with optional keys). -/
structure LimitPair where
  lower : Option ℚ
  upper : Option ℚ
deriving DecidableEq, Repr

/-- One entry of config.materialConstraints. -/
structure MaterialConstraint where
  materialId : String
  minPercentage : Option ℚ
  maxPercentage : Option ℚ
deriving DecidableEq, Repr

/-- The optimization configuration (§3 of the spec). -/
structure Config where
  selectedParameters : List String
  customLimits : List (String × LimitPair)
  materialConstraints : List MaterialConstraint
  tolerance : Option ℚ
  autoRelax : Option Bool
deriving DecidableEq, Repr

/-- A material record.  `parameters` maps a parameter name to the (possibly
null) `value` field of its record; an absent parameter and an explicit
null value both yield `none` on extraction. -/
structure Material where
  id : String
  name : String
  availableTonnage : Option ℚ
  parameters : List (String × Option ℚ)
deriving DecidableEq, Repr

/-- The BS3882 default limit table from get_targets_and_limits. -/
def bs3882_limits : List (String × LimitPair) :=
  [("pH", ⟨some (11/2), some (17/2)⟩),
   ("Stone Content (>2mm)", ⟨none, some 8⟩),
   ("Organic Matter", ⟨some (7/2), some 10⟩),
   ("Clay", ⟨some 8, some 35⟩),
   ("Silt", ⟨some 15, some 60⟩),
   ("Sand", ⟨some 30, some 60⟩),
   ("Arsenic", ⟨none, some 20⟩),
   ("Cadmium", ⟨none, some 3⟩),
   ("Chromium (Total)", ⟨none, some 100⟩),
   ("Copper", ⟨none, some 200⟩),
   ("Lead", ⟨none, some 450⟩),
   ("Mercury", ⟨none, some 1⟩),
   ("Nickel", ⟨none, some 75⟩),
   ("Zinc", ⟨none, some 300⟩)]

/-- The fixed zero-seeking parameter set from get_targets_and_limits. -/
def zero_seeking : List String :=
  ["Arsenic", "Cadmium", "Chromium (Total)", "Chromium (VI)",
   "Lead", "Mercury", "Selenium", "Molybdenum",
   "Cyanide (Free)", "Cyanide (Total)", "TPH (Total Petroleum Hydrocarbons)",
   "PAH (Total)", "PCBs (Total)", "Asbestos"]

/-- Keys of a Python dict built by repeated assignment, in insertion order
(first occurrence wins the position; later assignments of the same key
store the same value here, since the stored value depends only on the key). -/
def dedupKeepFirst (seen : List String) : List String → List String
  | [] => []
  | a :: l => if a ∈ seen then dedupKeepFirst seen l else a :: dedupKeepFirst (a :: seen) l

/-- extract_material_parameters: for each selected parameter, the per-material
value vector (NaN sentinel = `none`). -/
def extract_material_parameters (materials : List Material) (config : Config) :
    List (String × List (Option ℚ)) :=
  (dedupKeepFirst [] config.selectedParameters).map (fun p =>
    (p, materials.map (fun m => (m.parameters.lookup p).join)))

/-- Limit resolution of get_targets_and_limits: custom override, else BS3882
default, else absent — separately for each of the two bounds. -/
def resolveLimits (config : Config) (name : String) : LimitPair :=
  let custom := (config.customLimits.lookup name).getD ⟨none, none⟩
  let dflt := (bs3882_limits.lookup name).getD ⟨none, none⟩
  ⟨match custom.lower with
    | some v => some v
    | none => dflt.lower,
   match custom.upper with
    | some v => some v
    | none => dflt.upper⟩

/-- Target resolution of get_targets_and_limits.  For a zero-seeking
parameter the source reads `param_limits.get('lower', 0)`; `param_limits`
is a dict literal that always contains the key 'lower' (possibly with value
None), so the `.get` default 0 is dead code and the resolved target is the
lower bound itself — Python `None` (here `none`) when there is no lower
bound. -/
def resolveTarget (config : Config) (name : String) : Option ℚ :=
  let lim := resolveLimits config name
  if name ∈ zero_seeking then
    lim.lower
  else
    match lim.lower, lim.upper with
    | some lo, some up => some ((lo + up) / 2)
    | some lo, none => some lo
    | none, some up => some up
    | none, none => some 0

/-- get_targets_and_limits: the (targets, limits) pair, keyed like
material_params.  A target of `none` models Python `None`. -/
def get_targets_and_limits (material_params : List (String × List (Option ℚ)))
    (config : Config) : List (String × Option ℚ) × List (String × LimitPair) :=
  (material_params.map (fun p => (p.1, resolveTarget config p.1)),
   material_params.map (fun p => (p.1, resolveLimits config p.1)))

/-- One scipy constraint record, defunctionalized: the lambdas of
setup_constraints become data, with `eval` giving the captured function. -/
inductive ConstraintSpec where
  | eqSum : ConstraintSpec
  | ineqMin (idx : ℕ) (minVal : ℚ) : ConstraintSpec
  | ineqMax (idx : ℕ) (maxVal : ℚ) : ConstraintSpec
deriving DecidableEq, Repr

/-- The function carried by a constraint record: eqSum is the lambda
`np.sum(x) - 1` of type 'eq'; the other two are the 'ineq' lambdas
`x[idx] - min_val` and `max_val - x[idx]`. -/
def ConstraintSpec.eval : ConstraintSpec → List ℚ → ℚ
  | .eqSum, x => x.sum - 1
  | .ineqMin idx minVal, x => x.getD idx 0 - minVal
  | .ineqMax idx maxVal, x => maxVal - x.getD idx 0

/-- setup_constraints: the equality constraint first, then for each material
constraint whose id resolves (first matching index, as Python `next`), the
min constraint (if any) then the max constraint (if any); unresolved ids
contribute nothing.  The n_materials argument is unused in the source too. -/
def setup_constraints (materials : List Material) (config : Config)
    (n_materials : ℕ) : List ConstraintSpec :=
  ConstraintSpec.eqSum ::
    config.materialConstraints.flatMap (fun mc =>
      match materials.findIdx? (fun m => m.id == mc.materialId) with
      | none => []
      | some idx =>
          (match mc.minPercentage with
           | some v => [ConstraintSpec.ineqMin idx (v / 100)]
           | none => [])
          ++ (match mc.maxPercentage with
              | some v => [ConstraintSpec.ineqMax idx (v / 100)]
              | none => []))

/-- Weighted blend value of one parameter: keep the (ratio, value) pairs with
a present value; skip the parameter when none is present or when the valid
ratios do not sum to a positive number; otherwise re-normalize the valid
ratios and take the weighted sum, exactly as calculate_blend_parameters. -/
def blendOne (ratios : List ℚ) (values : List (Option ℚ)) : Option ℚ :=
  let validPairs := (ratios.zip values).filterMap (fun p => p.2.map (fun v => (p.1, v)))
  if validPairs.isEmpty then none
  else
    let s := (validPairs.map Prod.fst).sum
    if 0 < s then some ((validPairs.map (fun p => p.1 / s * p.2)).sum)
    else none

/-- calculate_blend_parameters: the dict of blend values for the parameters
that are not skipped. -/
def calculate_blend_parameters (ratios : List ℚ)
    (material_params : List (String × List (Option ℚ))) : List (String × ℚ) :=
  material_params.filterMap (fun p => (blendOne ratios p.2).map (fun b => (p.1, b)))

/-- The denominator idiom `target if target != 0 else 1`. -/
def pyDenom (t : ℚ) : ℚ := if t ≠ 0 then t else 1

/-- The residual of the objective function: distance below the lower limit,
else distance above the upper limit, else distance from the target, each
divided by `pyDenom target`. -/
def objResidual (lim : LimitPair) (bv tv : ℚ) : ℚ :=
  match lim.lower with
  | some lo =>
    if bv < lo then (lo - bv) / pyDenom tv
    else
      match lim.upper with
      | some up => if up < bv then (bv - up) / pyDenom tv else (bv - tv) / pyDenom tv
      | none => (bv - tv) / pyDenom tv
  | none =>
    match lim.upper with
    | some up => if up < bv then (bv - up) / pyDenom tv else (bv - tv) / pyDenom tv
    | none => (bv - tv) / pyDenom tv

/-- The tolerance-gated penalty term of the objective. -/
def objPenalty (tol residual : ℚ) : ℚ :=
  if tol < |residual| then residual ^ 2 * 10 else residual ^ 2

/-- The accumulation loop of calculate_objective.  A parameter whose blend
value is absent is skipped before its target is touched; a present blend
value with a `None` target raises a TypeError, modelled as `none`. -/
def objGo (blend : List (String × ℚ)) (limitsL : List (String × LimitPair))
    (tol : ℚ) : List (String × Option ℚ) → ℚ → Option ℚ
  | [], acc => some acc
  | (name, tgt) :: rest, acc =>
    match blend.lookup name with
    | none => objGo blend limitsL tol rest acc
    | some bv =>
      match tgt with
      | none => none
      | some tv =>
          objGo blend limitsL tol rest
            (acc + objPenalty tol (objResidual ((limitsL.lookup name).getD ⟨none, none⟩) bv tv))

/-- calculate_objective: total penalized squared residual over the targeted
parameters, with tolerance `config.tolerance / 100` (default 30). -/
def calculate_objective (ratios : List ℚ)
    (material_params : List (String × List (Option ℚ)))
    (targets : List (String × Option ℚ)) (limitsL : List (String × LimitPair))
    (config : Config) : Option ℚ :=
  objGo (calculate_blend_parameters ratios material_params) limitsL
    ((config.tolerance.getD 30) / 100) targets 0

/-- Compliance status of one residual entry. -/
inductive Status where
  | compliant : Status
  | marginal : Status
  | exceeding : Status
deriving DecidableEq, Repr

/-- The status thresholds of calculate_residuals: tolerance is used as a
percent here, not divided by 100. -/
def mkStatus (rp tol : ℚ) : Status :=
  if rp ≤ tol then Status.compliant
  else if rp ≤ tol * (3/2) then Status.marginal
  else Status.exceeding

/-- The signed residual of calculate_residuals (no denominator yet). -/
def resResidual (lim : LimitPair) (bv tv : ℚ) : ℚ :=
  match lim.lower with
  | some lo =>
    if bv < lo then bv - lo
    else
      match lim.upper with
      | some up => if up < bv then bv - up else bv - tv
      | none => bv - tv
  | none =>
    match lim.upper with
    | some up => if up < bv then bv - up else bv - tv
    | none => bv - tv

/-- One row of the residuals report. -/
structure ResidualEntry where
  parameter : String
  value : ℚ
  lowerLimit : Option ℚ
  upperLimit : Option ℚ
  target : ℚ
  residual : ℚ
  residualPercent : ℚ
  status : Status
deriving DecidableEq, Repr

/-- One iteration of the calculate_residuals loop.  `targets.get(name, 0)`
yields 0 for an absent key but Python `None` when the stored target is None;
in the latter case `abs(residual / ...)` and `float(target)` raise a
TypeError, modelled as `none`. -/
def mkResidualEntry (tol : ℚ) (targets : List (String × Option ℚ))
    (limitsL : List (String × LimitPair)) (p : String × ℚ) : Option ResidualEntry :=
  let tgt : Option ℚ :=
    match targets.lookup p.1 with
    | some t => t
    | none => some 0
  match tgt with
  | none => none
  | some tv =>
    let lim := (limitsL.lookup p.1).getD ⟨none, none⟩
    let residual := resResidual lim p.2 tv
    let rp := |residual / pyDenom tv| * 100
    some { parameter := p.1, value := p.2, lowerLimit := lim.lower,
           upperLimit := lim.upper, target := tv, residual := residual,
           residualPercent := rp, status := mkStatus rp tol }

/-- A Python loop that appends `f x` for each `x` and may raise: `none` as
soon as any element raises. -/
def mapOptionAll (f : α → Option β) : List α → Option (List β)
  | [] => some []
  | x :: xs =>
    match f x, mapOptionAll f xs with
    | some y, some ys => some (y :: ys)
    | _, _ => none

/-- The descending sort order of the residuals list: by absolute
residualPercent, largest first. -/
def residualOrder (a b : ResidualEntry) : Prop :=
  |b.residualPercent| ≤ |a.residualPercent|

instance : DecidableRel residualOrder := fun a b =>
  inferInstanceAs (Decidable (_ ≤ _))

instance : IsTotal ResidualEntry residualOrder :=
  ⟨fun a b => le_total |b.residualPercent| |a.residualPercent|⟩

instance : IsTrans ResidualEntry residualOrder :=
  ⟨fun _ _ _ h h' => le_trans h' h⟩

/-- calculate_residuals: one entry per blend parameter (in dict order),
then sorted descending by absolute residual percent. -/
def calculate_residuals (blend_params : List (String × ℚ))
    (targets : List (String × Option ℚ)) (limitsL : List (String × LimitPair))
    (config : Config) : Option (List ResidualEntry) :=
  (mapOptionAll (mkResidualEntry (config.tolerance.getD 30) targets limitsL) blend_params).map
    (List.insertionSort residualOrder)

/-- The outcome of one scipy solver call: success flag, solution vector,
iteration count. -/
structure SolverResult where
  success : Bool
  x : List ℚ
  nit : ℕ
deriving DecidableEq, Repr

/-- The auto-relax sweep values of optimize_blend. -/
def sweepTolerances : List ℚ := [2/5, 1/2, 3/5, 4/5, 1]

/-- config.copy() with the tolerance replaced (and nothing else). -/
def Config.withTolerance (c : Config) (t : ℚ) : Config :=
  { c with tolerance := some t }

/-- The relax loop of optimize_blend: try each tolerance in order, stop at
the first success recording `t * 100` as the relaxed tolerance; if none
succeeds the last attempt's result stands with no recorded relaxation. -/
def relaxSweep (solve : ℚ → SolverResult) :
    List ℚ → SolverResult → SolverResult × Option ℚ
  | [], prev => (prev, none)
  | t :: ts, _ =>
    let r := solve (t * 100)
    if r.success then (r, some (t * 100)) else relaxSweep solve ts r

/-- The final defensive normalization: divide the vector by its own sum. -/
def normalizeRatios (x : List ℚ) : List ℚ := x.map (fun r => r / x.sum)

/-- A structured warning (the Python code renders these as f-strings; the
data carried is the same, with `missingData` holding the full missing list
whose rendering names the first five and counts the rest). -/
inductive Warning where
  | exceedingLimits (count : ℕ) : Warning
  | marginalLimits (count : ℕ) : Warning
  | toleranceRelaxed (value : ℚ) : Warning
  | missingData (params : List String) : Warning
deriving DecidableEq, Repr

/-- One row of the tonnage breakdown. -/
structure TonnageEntry where
  materialName : String
  materialId : String
  available : ℚ
  used : ℚ
  remaining : ℚ
  percentage : ℚ
deriving DecidableEq, Repr

/-- The compliance summary block. -/
structure Compliance where
  totalParameters : ℕ
  compliant : ℕ
  marginal : ℕ
  exceeding : ℕ
  meanResidual : ℚ
  highestResidual : ℚ
  lowestResidual : ℚ
deriving DecidableEq, Repr

/-- The soil texture block. -/
structure SoilTexture where
  clay : ℚ
  silt : ℚ
  sand : ℚ
  withinAcceptableRange : Bool
deriving DecidableEq, Repr

/-- The optimizationDetails block. -/
structure OptimizationDetails where
  iterations : ℕ
  convergence : Bool
  relaxedTolerance : Option ℚ
  method : String
deriving DecidableEq, Repr

/-- The full optimization result record. -/
structure BlendResult where
  success : Bool
  blendRatios : List (String × ℚ)
  tonnageBreakdown : List TonnageEntry
  compliance : Compliance
  residuals : List ResidualEntry
  soilTexture : Option SoilTexture
  warnings : List Warning
  optimizationDetails : OptimizationDetails
deriving DecidableEq, Repr

/-- Python max over a possibly empty list (0 when empty, as guarded). -/
def qListMax : List ℚ → ℚ
  | [] => 0
  | a :: l => l.foldl max a

/-- Python min over a possibly empty list (0 when empty, as guarded). -/
def qListMin : List ℚ → ℚ
  | [] => 0
  | a :: l => l.foldl min a

/-- The soil texture computation of build_result: only when Clay, Silt and
Sand are all in the blend dict AND their total is strictly positive. -/
def computeSoilTexture (blend_params : List (String × ℚ)) : Option SoilTexture :=
  match blend_params.lookup "Clay", blend_params.lookup "Silt", blend_params.lookup "Sand" with
  | some clay, some silt, some sand =>
    let total := clay + silt + sand
    if 0 < total then
      let clay_pct := clay / total * 100
      let silt_pct := silt / total * 100
      let sand_pct := sand / total * 100
      some { clay := clay_pct, silt := silt_pct, sand := sand_pct,
             withinAcceptableRange :=
               decide (8 ≤ clay_pct ∧ clay_pct ≤ 35 ∧ 15 ≤ silt_pct ∧ silt_pct ≤ 60
                 ∧ 30 ≤ sand_pct ∧ sand_pct ≤ 60) }
    else none
  | _, _, _ => none

/-- The selected parameters with no entry in the blend dict, in order. -/
def missingParams (blend_params : List (String × ℚ)) (config : Config) : List String :=
  config.selectedParameters.filter (fun p => (blend_params.lookup p).isNone)

/-- build_result: assemble the result record from the pieces. -/
def build_result (success : Bool) (ratios : List ℚ) (materials : List Material)
    (residuals : List ResidualEntry) (blend_params : List (String × ℚ))
    (iterations : ℕ) (convergence : Bool) (relaxed_tolerance : Option ℚ)
    (config : Config) : BlendResult :=
  let pairs := materials.zip ratios
  let blendRatios := pairs.map (fun p => (p.1.id, p.2))
  let tonnageBreakdown := pairs.map (fun p =>
    let available := p.1.availableTonnage.getD 0
    { materialName := p.1.name, materialId := p.1.id, available := available,
      used := available * p.2, remaining := available - available * p.2,
      percentage := p.2 * 100 : TonnageEntry })
  let compliantCount := residuals.countP (fun r => decide (r.status = Status.compliant))
  let marginalCount := residuals.countP (fun r => decide (r.status = Status.marginal))
  let exceedingCount := residuals.countP (fun r => decide (r.status = Status.exceeding))
  let rps := residuals.map (fun r => |r.residualPercent|)
  let compliance : Compliance :=
    { totalParameters := residuals.length, compliant := compliantCount,
      marginal := marginalCount, exceeding := exceedingCount,
      meanResidual := if residuals.isEmpty then 0 else rps.sum / (residuals.length : ℚ),
      highestResidual := if residuals.isEmpty then 0 else qListMax rps,
      lowestResidual := if residuals.isEmpty then 0 else qListMin rps }
  let missing := missingParams blend_params config
  let warnings :=
    (if 0 < exceedingCount then [Warning.exceedingLimits exceedingCount] else [])
    ++ (if 0 < marginalCount then [Warning.marginalLimits marginalCount] else [])
    ++ (match relaxed_tolerance with
        | some t => if t ≠ 0 then [Warning.toleranceRelaxed t] else []
        | none => [])
    ++ (if missing.isEmpty then [] else [Warning.missingData missing])
  { success := success, blendRatios := blendRatios,
    tonnageBreakdown := tonnageBreakdown, compliance := compliance,
    residuals := residuals, soilTexture := computeSoilTexture blend_params,
    warnings := warnings,
    optimizationDetails :=
      { iterations := iterations, convergence := convergence,
        relaxedTolerance := relaxed_tolerance, method := "SLSQP" } }

/-- The three-stage solver orchestration of optimize_blend (lines 79 to 119
of the source): the initial solve, then (only when it failed and autoRelax,
default true, is on) the relax sweep, then (only when still no success) the
global solver; the second component is the recorded relaxed tolerance. -/
def runStages (solveL solveG : Config → SolverResult) (config : Config) :
    SolverResult × Option ℚ :=
  let result1 := solveL config
  let sweep :=
    if !result1.success && config.autoRelax.getD true then
      relaxSweep (fun tolPct => solveL (config.withTolerance tolPct))
        sweepTolerances result1
    else (result1, none)
  if !sweep.1.success then (solveG config, sweep.2) else sweep

/-- optimize_blend, with the two scipy solvers as oracles.  `solveL cfg`
stands for `minimize(objective-built-from-cfg, x0, SLSQP, bounds,
constraints, maxiter 1000, ftol 1e-9)` and `solveG cfg` for
`differential_evolution(objective-built-from-cfg, bounds, constraints,
maxiter 1000, seed 42)`; all other solver inputs are fixed within the call.
The final TypeError of calculate_residuals (a `None` target reached with a
present blend value) propagates as an error. -/
def optimize_blend (solveL solveG : Config → SolverResult)
    (materials : List Material) (config : Config) : Except String BlendResult :=
  if materials.length < 2 then
    Except.error "At least 2 materials are required for blending"
  else
    let material_params := extract_material_parameters materials config
    let tl := get_targets_and_limits material_params config
    let st := runStages solveL solveG config
    let finalResult := st.1
    let ratios := normalizeRatios finalResult.x
    let blend_params := calculate_blend_parameters ratios material_params
    match calculate_residuals blend_params tl.1 tl.2 config with
    | none => Except.error "TypeError: unsupported operand type for float and NoneType"
    | some residuals =>
      Except.ok (build_result finalResult.success ratios materials residuals
        blend_params finalResult.nit finalResult.success st.2 config)

/-- What the claim observes of a finished optimize_blend call that ended
with solver result `r` and recorded relaxed tolerance `rt`: the reported
success flag is r's (whatever it is), the relaxed tolerance is recorded in
optimizationDetails, the iteration count is r's, the residual report is
computed from r's normalized vector with the ORIGINAL config (so the
original tolerance drives the statuses), and a recorded nonzero relaxation
is echoed as a warning. -/
def resAgrees (res : BlendResult) (mats : List Material) (cfg : Config)
    (r : SolverResult) (rt : Option ℚ) : Prop :=
  res.success = r.success
  ∧ res.optimizationDetails.relaxedTolerance = rt
  ∧ res.optimizationDetails.iterations = r.nit
  ∧ calculate_residuals
      (calculate_blend_parameters (normalizeRatios r.x)
        (extract_material_parameters mats cfg))
      (get_targets_and_limits (extract_material_parameters mats cfg) cfg).1
      (get_targets_and_limits (extract_material_parameters mats cfg) cfg).2
      cfg = some res.residuals
  ∧ (∀ t : ℚ, rt = some t → t ≠ 0 →
      Warning.toleranceRelaxed t ∈ res.warnings)

/-! Concrete fixtures used by the claim theorems and witnesses. -/

/-- A material supplying an Arsenic value. -/
def matA1 : Material :=
  { id := "m1", name := "Topsoil", availableTonnage := some 100,
    parameters := [("Arsenic", some 5)] }

/-- A second material supplying an Arsenic value. -/
def matA2 : Material :=
  { id := "m2", name := "Subsoil", availableTonnage := some 50,
    parameters := [("Arsenic", some 10)] }

/-- A config selecting only Arsenic, with no custom limits. -/
def cfgA : Config :=
  { selectedParameters := ["Arsenic"], customLimits := [],
    materialConstraints := [], tolerance := none, autoRelax := none }

/-- A solver oracle that always reports success at the vector [1, 1]
(normalized to the equal split by optimize_blend). -/
def solveOkOnes : Config → SolverResult :=
  fun _ => { success := true, x := [1, 1], nit := 5 }

/-- A bare material with id "a". -/
def matB1 : Material :=
  { id := "a", name := "A", availableTonnage := none, parameters := [] }

/-- A bare material with id "b". -/
def matB2 : Material :=
  { id := "b", name := "B", availableTonnage := none, parameters := [] }

/-- A config with one resolvable material constraint (min and max) and one
whose id matches no material. -/
def cfgB : Config :=
  { selectedParameters := [], customLimits := [],
    materialConstraints :=
      [{ materialId := "a", minPercentage := some 20, maxPercentage := some 80 },
       { materialId := "zzz", minPercentage := some 10, maxPercentage := none }],
    tolerance := none, autoRelax := none }

/-- A one-parameter blend dict with pH 7.5, as in the spec's pH scenario. -/
def blendW : List (String × ℚ) := [("pH", 15/2)]

/-- The per-material pH values 6.0 and 9.0 of the spec's pH scenario. -/
def mpW : List (String × List (Option ℚ)) := [("pH", [some 6, some 9])]

/-- The targets dict of the pH scenario: target 7 (midpoint of 5.5 and 8.5). -/
def targetsW : List (String × Option ℚ) := [("pH", some 7)]

/-- The limits dict of the pH scenario: the BS3882 pH band. -/
def limitsW : List (String × LimitPair) := [("pH", ⟨some (11/2), some (17/2)⟩)]

/-- The residual row the pH scenario produces: residual 0.5, residual percent
50/7 (≈ 7.14), compliant at the default 30 tolerance. -/
def entryW : ResidualEntry :=
  { parameter := "pH", value := 15/2, lowerLimit := some (11/2),
    upperLimit := some (17/2), target := 7, residual := 1/2,
    residualPercent := 50/7, status := Status.compliant }

/-- A parameter vector where only the first material has a value. -/
def mpZ : List (String × List (Option ℚ)) := [("X", [some 1, none])]

/-- A config selecting only the parameter X. -/
def cfgZ : Config :=
  { selectedParameters := ["X"], customLimits := [], materialConstraints := [],
    tolerance := none, autoRelax := none }

/-- A material with pH 6.0. -/
def matP1 : Material :=
  { id := "m1", name := "T", availableTonnage := some 100,
    parameters := [("pH", some 6)] }

/-- A material with pH 9.0. -/
def matP2 : Material :=
  { id := "m2", name := "S", availableTonnage := some 50,
    parameters := [("pH", some 9)] }

/-- A config selecting only pH, with default tolerance and autoRelax. -/
def cfgP : Config :=
  { selectedParameters := ["pH"], customLimits := [], materialConstraints := [],
    tolerance := none, autoRelax := none }

/-- A solver oracle that succeeds exactly when run with the objective whose
config carries tolerance 50 (so the initial solve fails, the sweep fails at
40 and succeeds at 50). -/
def solveSweep : Config → SolverResult :=
  fun c => { success := decide (c.tolerance = some 50), x := [1, 3], nit := 7 }

/-- The residual row of the pH scenario at ratios [1/4, 3/4]: blend pH 8.25,
within band, residual 1.25, residual percent 125/7, compliant. -/
def entryP : ResidualEntry :=
  { parameter := "pH", value := 33/4, lowerLimit := some (11/2),
    upperLimit := some (17/2), target := 7, residual := 5/4,
    residualPercent := 125/7, status := Status.compliant }

/-- The full result record optimize_blend produces for solveSweep on the two
pH materials. -/
def resP : BlendResult :=
  build_result true (normalizeRatios [1, 3]) [matP1, matP2] [entryP]
    [("pH", 33/4)] 7 true (some 50) cfgP

/-- C1: the claim says a zero-seeking parameter whose resolved limits have no
lower bound gets target 0.  In the code `param_limits.get('lower', 0)` never
uses the default 0 because the dict literal always contains the key 'lower';
the resolved target is Python None (`some none` in the targets dict below),
not 0.  Arsenic is zero-seeking, its BS3882 entry has only an upper bound,
and with no custom override its target resolves to None. -/
theorem arsenic_target_resolves_to_none :
    "Arsenic" ∈ zero_seeking
    ∧ (resolveLimits cfgA "Arsenic").lower = none
    ∧ (resolveLimits cfgA "Arsenic").upper = some 20
    ∧ (get_targets_and_limits (extract_material_parameters [matA1, matA2] cfgA)
        cfgA).1.lookup "Arsenic" = some none
    ∧ (get_targets_and_limits (extract_material_parameters [matA1, matA2] cfgA)
        cfgA).1.lookup "Arsenic" ≠ some (some 0) := by
  refine ⟨by decide, rfl, rfl, rfl, by decide⟩

/-- C2: the claim says optimize_blend raises exactly when fewer than 2
materials are supplied.  With 2 materials that both carry an Arsenic value
and no custom limits, the Arsenic target resolves to Python None (see C1)
and the arithmetic on it raises a TypeError — in the real code as soon as
scipy evaluates the objective at x0, and in this model at the
calculate_residuals stage — so a richer-than-validation error escapes.
The second conjunct checks the documented validation error as well. -/
theorem optimize_blend_raises_beyond_validation :
    optimize_blend solveOkOnes solveOkOnes [matA1, matA2] cfgA
        = Except.error "TypeError: unsupported operand type for float and NoneType"
    ∧ optimize_blend solveOkOnes solveOkOnes [matA1] cfgA
        = Except.error "At least 2 materials are required for blending" := by
  constructor
  · have hmp : extract_material_parameters [matA1, matA2] cfgA
        = [("Arsenic", [some 5, some 10])] := by
      simp [extract_material_parameters, dedupKeepFirst, matA1, matA2, cfgA,
        List.lookup, Option.join]
    have htl : get_targets_and_limits [("Arsenic", [some 5, some 10])] cfgA
        = ([("Arsenic", none)], [("Arsenic", ⟨none, some 20⟩)]) := by
      simp [get_targets_and_limits, resolveTarget, resolveLimits, cfgA,
        zero_seeking, bs3882_limits, List.lookup]
    have hblend : calculate_blend_parameters (normalizeRatios [1, 1])
        [("Arsenic", [some 5, some 10])] = [("Arsenic", 15/2)] := by
      norm_num [calculate_blend_parameters, blendOne, normalizeRatios,
        List.filterMap_cons, List.zip_cons_cons, List.zip_nil_right,
        List.zip_nil_left]
    have hres : ∀ b : ℚ, calculate_residuals [("Arsenic", b)]
        [("Arsenic", none)] [("Arsenic", ⟨none, some 20⟩)] cfgA = none := by
      intro b
      simp [calculate_residuals, mapOptionAll, mkResidualEntry, List.lookup]
    simp [optimize_blend, runStages, solveOkOnes, hmp, htl, hblend, hres]
  · rfl

/-- C8: dividing a ratio vector by its own sum is the identity on vectors
that already sum to 1. -/
theorem normalize_idempotent (r : List ℚ) (h : r.sum = 1) :
    normalizeRatios r = r := by
  simp [normalizeRatios, h]

/-- Witness for C8 at the equal split of two materials. -/
theorem normalize_idempotent_witness :
    ([1/2, 1/2] : List ℚ).sum = 1 ∧ normalizeRatios [1/2, 1/2] = [1/2, 1/2] :=
  ⟨by norm_num, normalize_idempotent _ (by norm_num)⟩

/-- C10: the soil texture block of build_result is absent exactly when one of
Clay, Silt, Sand is missing from the blend dict or their total is not
strictly positive — the division by the total is guarded by `total > 0`. -/
theorem soil_texture_guard (success : Bool) (ratios : List ℚ)
    (mats : List Material) (rs : List ResidualEntry)
    (blend_params : List (String × ℚ)) (iterations : ℕ) (convergence : Bool)
    (rt : Option ℚ) (cfg : Config) :
    (build_result success ratios mats rs blend_params iterations convergence
        rt cfg).soilTexture = none
      ↔ blend_params.lookup "Clay" = none ∨ blend_params.lookup "Silt" = none
        ∨ blend_params.lookup "Sand" = none
        ∨ ∃ c si sa, blend_params.lookup "Clay" = some c
            ∧ blend_params.lookup "Silt" = some si
            ∧ blend_params.lookup "Sand" = some sa
            ∧ c + si + sa ≤ 0 := by
  have hb : (build_result success ratios mats rs blend_params iterations
      convergence rt cfg).soilTexture = computeSoilTexture blend_params := rfl
  rw [hb]
  rcases hc : blend_params.lookup "Clay" with _ | c
  · simp [computeSoilTexture, hc]
  · rcases hsi : blend_params.lookup "Silt" with _ | si
    · simp [computeSoilTexture, hc, hsi]
    · rcases hsa : blend_params.lookup "Sand" with _ | sa
      · simp [computeSoilTexture, hc, hsi, hsa]
      · simp only [computeSoilTexture, hc, hsi, hsa]
        split_ifs with h
        · simp [hc, hsi, hsa, not_le.mpr h]
        · simp [hc, hsi, hsa, not_lt.mp h]

/-- C6: setup_constraints emits the single sum-to-one equality constraint
first; each resolvable material constraint contributes its min inequality
(ratio at the index minus min/100) when minPercentage is present and its max
inequality (max/100 minus the ratio) when maxPercentage is present, and the
total count shows that unresolvable ids contribute nothing (and no error is
possible: the function is total). -/
theorem setup_constraints_shape (materials : List Material) (config : Config)
    (n : ℕ) :
    (setup_constraints materials config n).head? = some ConstraintSpec.eqSum
    ∧ (∀ x : List ℚ, ConstraintSpec.eqSum.eval x = x.sum - 1)
    ∧ (setup_constraints materials config n).countP
        (fun c => decide (c = ConstraintSpec.eqSum)) = 1
    ∧ (setup_constraints materials config n).length
        = 1 + (config.materialConstraints.map (fun mc =>
            match materials.findIdx? (fun m => m.id == mc.materialId) with
            | none => 0
            | some _ =>
                (if mc.minPercentage.isSome then 1 else 0)
                + (if mc.maxPercentage.isSome then 1 else 0))).sum
    ∧ (∀ mc ∈ config.materialConstraints, ∀ i,
        materials.findIdx? (fun m => m.id == mc.materialId) = some i →
        (∀ v, mc.minPercentage = some v →
          ConstraintSpec.ineqMin i (v / 100) ∈ setup_constraints materials config n
          ∧ ∀ x : List ℚ, (ConstraintSpec.ineqMin i (v / 100)).eval x
              = x.getD i 0 - v / 100)
        ∧ (∀ v, mc.maxPercentage = some v →
          ConstraintSpec.ineqMax i (v / 100) ∈ setup_constraints materials config n
          ∧ ∀ x : List ℚ, (ConstraintSpec.ineqMax i (v / 100)).eval x
              = v / 100 - x.getD i 0)) := by
  refine ⟨rfl, fun x => rfl, ?_, ?_, ?_⟩
  · rw [setup_constraints, List.countP_cons]
    have h0 : (config.materialConstraints.flatMap (fun mc =>
        match materials.findIdx? (fun m => m.id == mc.materialId) with
        | none => []
        | some idx =>
            (match mc.minPercentage with
             | some v => [ConstraintSpec.ineqMin idx (v / 100)]
             | none => [])
            ++ (match mc.maxPercentage with
                | some v => [ConstraintSpec.ineqMax idx (v / 100)]
                | none => []))).countP
          (fun c => decide (c = ConstraintSpec.eqSum)) = 0 := by
      rw [List.countP_eq_zero]
      intro c hc
      rcases List.mem_flatMap.mp hc with ⟨mc, _, hcm⟩
      rcases hidx : materials.findIdx? (fun m => m.id == mc.materialId) with _ | i <;>
        rw [hidx] at hcm
      · simp at hcm
      · rcases List.mem_append.mp hcm with h | h
        · rcases hmin : mc.minPercentage with _ | v <;> rw [hmin] at h <;>
            simp at h
          simp [h]
        · rcases hmax : mc.maxPercentage with _ | v <;> rw [hmax] at h <;>
            simp at h
          simp [h]
    rw [h0]
    simp
  · rw [setup_constraints]
    simp only [List.length_cons]
    rw [Nat.add_comm]
    congr 1
    induction config.materialConstraints with
    | nil => simp
    | cons mc mcs ih =>
      rw [List.flatMap_cons, List.map_cons, List.length_append, List.sum_cons, ih]
      congr 1
      rcases hidx : materials.findIdx? (fun m => m.id == mc.materialId) with _ | i
      · simp [hidx]
      · rcases hmin : mc.minPercentage with _ | v <;>
          rcases hmax : mc.maxPercentage with _ | w <;>
          simp [hidx, hmin, hmax]
  · intro mc hmc i hidx
    constructor
    · intro v hv
      refine ⟨?_, fun x => rfl⟩
      rw [setup_constraints]
      apply List.mem_cons_of_mem
      exact List.mem_flatMap.mpr ⟨mc, hmc, by simp [hidx, hv]⟩
    · intro v hv
      refine ⟨?_, fun x => rfl⟩
      rw [setup_constraints]
      apply List.mem_cons_of_mem
      refine List.mem_flatMap.mpr ⟨mc, hmc, ?_⟩
      rcases hmin : mc.minPercentage with _ | w <;> simp [hidx, hv, hmin]

/-- Witness for C6: with materials [a, b] and constraints for id "a"
(min 20, max 80) and the unresolvable id "zzz" (min 10), the min constraint
for index 0 is emitted and the list holds exactly 3 constraints
(1 equality + 2 for "a" + 0 for "zzz"). -/
theorem setup_constraints_shape_witness :
    ConstraintSpec.ineqMin 0 (20 / 100) ∈ setup_constraints [matB1, matB2] cfgB 2
    ∧ (setup_constraints [matB1, matB2] cfgB 2).length = 3 := by
  refine ⟨?_, ?_⟩
  · exact (((setup_constraints_shape [matB1, matB2] cfgB 2).2.2.2.2
      { materialId := "a", minPercentage := some 20, maxPercentage := some 80 }
      (by simp [cfgB]) 0 (by decide)).1 20 rfl).1
  · exact ((setup_constraints_shape [matB1, matB2] cfgB 2).2.2.2.1).trans (by decide)

/-- When a loop-with-exceptions completes, every output element comes from
some input element. -/
theorem mapOptionAll_mem {α β : Type} (f : α → Option β) :
    ∀ {xs : List α} {ys : List β}, mapOptionAll f xs = some ys →
      ∀ y ∈ ys, ∃ x ∈ xs, f x = some y := by
  intro xs
  induction xs with
  | nil =>
    intro ys h y hy
    simp [mapOptionAll] at h
    subst h
    simp at hy
  | cons x xs ih =>
    intro ys h y hy
    rw [mapOptionAll] at h
    rcases hfx : f x with _ | z <;> rw [hfx] at h <;>
      rcases hrest : mapOptionAll f xs with _ | zs <;> rw [hrest] at h <;>
      simp at h
    subst h
    rcases List.mem_cons.mp hy with rfl | hy'
    · exact ⟨x, List.mem_cons_self x xs, hfx⟩
    · obtain ⟨x', hx', hfx'⟩ := ih hrest y hy'
      exact ⟨x', List.mem_cons_of_mem x hx', hfx'⟩

/-- A successfully built residual row carries the status computed from its
own residualPercent field. -/
theorem mkResidualEntry_status (tol : ℚ) (targets : List (String × Option ℚ))
    (limitsL : List (String × LimitPair)) (p : String × ℚ) (e : ResidualEntry)
    (h : mkResidualEntry tol targets limitsL p = some e) :
    e.status = mkStatus e.residualPercent tol := by
  simp only [mkResidualEntry] at h
  split at h
  · exact absurd h (by simp)
  · cases h
    rfl

/-- C5: every emitted residual entry's status follows the compliant /
marginal / exceeding thresholds at tolerance (as a percent) and 1.5 times
the tolerance, equality included on both boundaries, and the final list is
sorted descending by absolute residualPercent. -/
theorem calculate_residuals_status_and_sort
    (blend_params : List (String × ℚ)) (targets : List (String × Option ℚ))
    (limitsL : List (String × LimitPair)) (config : Config)
    (l : List ResidualEntry)
    (h : calculate_residuals blend_params targets limitsL config = some l) :
    (∀ e ∈ l, e.status =
        (if e.residualPercent ≤ config.tolerance.getD 30 then Status.compliant
         else if e.residualPercent ≤ config.tolerance.getD 30 * (3/2) then
           Status.marginal
         else Status.exceeding))
    ∧ l.Sorted residualOrder := by
  rw [calculate_residuals] at h
  rcases hm : mapOptionAll
      (mkResidualEntry (config.tolerance.getD 30) targets limitsL)
      blend_params with _ | l0 <;> rw [hm] at h
  · simp at h
  · simp only [Option.map_some'] at h
    cases h
    constructor
    · intro e he
      have he0 : e ∈ l0 := (List.mem_insertionSort residualOrder).mp he
      obtain ⟨p, _, hp⟩ := mapOptionAll_mem _ hm e he0
      rw [mkResidualEntry_status _ _ _ _ _ hp]
      rfl
    · exact List.sorted_insertionSort residualOrder l0

/-- Witness for C5 at the spec's pH scenario: one compliant entry. -/
theorem calculate_residuals_status_and_sort_witness :
    calculate_residuals blendW targetsW limitsW cfgA = some [entryW]
    ∧ ((∀ e ∈ [entryW], e.status =
          (if e.residualPercent ≤ cfgA.tolerance.getD 30 then Status.compliant
           else if e.residualPercent ≤ cfgA.tolerance.getD 30 * (3/2) then
             Status.marginal
           else Status.exceeding))
       ∧ List.Sorted residualOrder [entryW]) := by
  have hcomp : calculate_residuals blendW targetsW limitsW cfgA = some [entryW] := by
    have habs : |(1 : ℚ)/14| = 1/14 := abs_of_nonneg (by norm_num)
    norm_num [calculate_residuals, mapOptionAll, mkResidualEntry, mkStatus,
      resResidual, pyDenom, blendW, targetsW, limitsW, entryW, cfgA,
      List.lookup, List.insertionSort, List.orderedInsert, habs]
  exact ⟨hcomp, calculate_residuals_status_and_sort _ _ _ _ _ hcomp⟩

/-- The elif chain of the objective residual, written as one four-way case
split on the presence of the two bounds. -/
theorem objResidual_eq (lim : LimitPair) (bv tv : ℚ) :
    objResidual lim bv tv =
      (match lim.lower, lim.upper with
       | some lo, some up =>
           if bv < lo then (lo - bv) / pyDenom tv
           else if up < bv then (bv - up) / pyDenom tv
           else (bv - tv) / pyDenom tv
       | some lo, none =>
           if bv < lo then (lo - bv) / pyDenom tv else (bv - tv) / pyDenom tv
       | none, some up =>
           if up < bv then (bv - up) / pyDenom tv else (bv - tv) / pyDenom tv
       | none, none => (bv - tv) / pyDenom tv) := by
  rcases lim with ⟨lo, up⟩
  rcases lo with _ | lo <;> rcases up with _ | up <;> rfl

/-- Unrolling the objective accumulation loop to a closed-form sum, possible
whenever no target is Python None. -/
theorem objGo_eq_sum (blend : List (String × ℚ))
    (limitsL : List (String × LimitPair)) (tol : ℚ) :
    ∀ (ts : List (String × Option ℚ)) (acc : ℚ),
      (∀ p ∈ ts, (p.2).isSome = true) →
      objGo blend limitsL tol ts acc
        = some (acc + (ts.map (fun p =>
            match blend.lookup p.1, p.2 with
            | some bv, some tv =>
                objPenalty tol
                  (objResidual ((limitsL.lookup p.1).getD ⟨none, none⟩) bv tv)
            | _, _ => 0)).sum) := by
  intro ts
  induction ts with
  | nil =>
    intro acc h
    simp [objGo]
  | cons p rest ih =>
    intro acc h
    obtain ⟨name, tgt⟩ := p
    have htgt : tgt.isSome = true := h _ (List.mem_cons_self _ _)
    have hrest : ∀ q ∈ rest, (q.2).isSome = true :=
      fun q hq => h q (List.mem_cons_of_mem _ hq)
    rcases tgt with _ | tv
    · simp at htgt
    · rcases hbv : blend.lookup name with _ | bv
      · rw [objGo, hbv, ih acc hrest]
        simp [hbv]
      · simp only [objGo, hbv]
        rw [ih (acc + objPenalty tol
          (objResidual ((limitsL.lookup name).getD ⟨none, none⟩) bv tv)) hrest]
        simp only [List.map_cons, List.sum_cons, hbv]
        congr 1
        ring

/-- C3: for every ratio vector, calculate_objective is the sum over targeted
parameters with a present blend value of residual squared, multiplied by 10
when the absolute residual exceeds tolerance/100, where the residual
numerator is the shortfall below the lower bound, else the excess above the
upper bound, else the deviation from the target, and the denominator is the
target unless it is zero (then 1).  Stated for targets dicts with no Python
None entry (those crash the code, see C1/C2). -/
theorem calculate_objective_closed_form (ratios : List ℚ)
    (material_params : List (String × List (Option ℚ)))
    (targets : List (String × Option ℚ)) (limitsL : List (String × LimitPair))
    (config : Config)
    (h : ∀ p ∈ targets, (p.2).isSome = true) :
    calculate_objective ratios material_params targets limitsL config
      = some ((targets.map (fun p =>
          match (calculate_blend_parameters ratios material_params).lookup p.1,
              p.2 with
          | some bv, some tv =>
            let lim := (limitsL.lookup p.1).getD ⟨none, none⟩
            let d := if tv ≠ 0 then tv else 1
            let residual :=
              match lim.lower, lim.upper with
              | some lo, some up =>
                  if bv < lo then (lo - bv) / d
                  else if up < bv then (bv - up) / d
                  else (bv - tv) / d
              | some lo, none =>
                  if bv < lo then (lo - bv) / d else (bv - tv) / d
              | none, some up =>
                  if up < bv then (bv - up) / d else (bv - tv) / d
              | none, none => (bv - tv) / d
            if (config.tolerance.getD 30) / 100 < |residual| then
              residual ^ 2 * 10
            else residual ^ 2
          | _, _ => 0)).sum) := by
  rw [calculate_objective,
    objGo_eq_sum (calculate_blend_parameters ratios material_params) limitsL
      ((config.tolerance.getD 30) / 100) targets 0 h, zero_add]
  refine congrArg _ (congrArg _ (List.map_congr_left ?_))
  intro p _
  rcases hbv : (calculate_blend_parameters ratios material_params).lookup p.1
      with _ | bv <;> rcases hp2 : p.2 with _ | tv <;>
    simp only [hbv, hp2] <;>
    first
      | rfl
      | (rw [objResidual_eq]; rfl)

/-- Witness for C3 at the spec's pH scenario: blend pH 7.5, target 7,
within limits, residual 1/14, within the default 0.3 tolerance, so the
objective is (1/14)^2 = 1/196. -/
theorem calculate_objective_closed_form_witness :
    (∀ p ∈ targetsW, (p.2).isSome = true)
    ∧ calculate_objective [1/2, 1/2] mpW targetsW limitsW cfgA
        = some (1/196) := by
  have h : ∀ p ∈ targetsW, (p.2).isSome = true := by decide
  refine ⟨h, (calculate_objective_closed_form [1/2, 1/2] mpW targetsW limitsW
    cfgA h).trans ?_⟩
  have habs : |(1 : ℚ)/14| = 1/14 := abs_of_nonneg (by norm_num)
  norm_num [mpW, targetsW, limitsW, cfgA, calculate_blend_parameters,
    blendOne, List.lookup, List.filterMap_cons, List.zip_cons_cons,
    List.zip_nil_right, List.zip_nil_left, habs]

/-- Looking up a parameter in the blend dict finds its blendOne value, for
the first occurrence of the key in material_params. -/
theorem lookup_calculate_blend_parameters (ratios : List ℚ)
    (mp : List (String × List (Option ℚ))) (name : String)
    (values : List (Option ℚ)) (b : ℚ)
    (hlook : mp.lookup name = some values)
    (hb : blendOne ratios values = some b) :
    (calculate_blend_parameters ratios mp).lookup name = some b := by
  induction mp with
  | nil => simp at hlook
  | cons q mp ih =>
    obtain ⟨k, vs⟩ := q
    by_cases hk : name = k
    · subst hk
      simp only [List.lookup, beq_self_eq_true, Option.some.injEq] at hlook
      subst hlook
      rw [calculate_blend_parameters, List.filterMap_cons]
      simp [hb, List.lookup]
    · have hne : (name == k) = false := by simp [hk]
      simp only [List.lookup, hne] at hlook
      rw [calculate_blend_parameters, List.filterMap_cons]
      rcases hbk : blendOne ratios vs with _ | b'
      · simp only [hbk, Option.map_none']
        exact ih hlook
      · simp only [hbk, Option.map_some', List.lookup, hne]
        exact ih hlook

/-- For a fully populated parameter, blendOne is the ratio-weighted average:
the sum of ratio-value products divided by the total ratio mass. -/
theorem blendOne_all_some (ratios : List ℚ) (vs : List ℚ)
    (hlen : ratios.length = vs.length) (hsum : 0 < ratios.sum) :
    blendOne ratios (vs.map some)
      = some (((ratios.zip vs).map (fun p => p.1 * p.2)).sum / ratios.sum) := by
  have hpairs : ∀ (rs : List ℚ) (ws : List ℚ),
      (rs.zip (ws.map some)).filterMap (fun p => p.2.map (fun v => (p.1, v)))
        = rs.zip ws := by
    intro rs
    induction rs with
    | nil => intro ws; simp
    | cons r rs ih =>
      intro ws
      rcases ws with _ | ⟨w, ws⟩
      · simp
      · simp [ih]
  have hfst : (ratios.zip vs).map Prod.fst = ratios :=
    List.map_fst_zip _ _ (le_of_eq hlen)
  have hne : (ratios.zip vs).isEmpty = false := by
    rcases ratios with _ | ⟨r, rs⟩
    · simp at hsum
    · rcases vs with _ | ⟨w, ws⟩
      · simp at hlen
      · simp
  have hdiv : ∀ (l : List (ℚ × ℚ)) (s : ℚ),
      (l.map (fun p => p.1 / s * p.2)).sum
        = (l.map (fun p => p.1 * p.2)).sum / s := by
    intro l s
    induction l with
    | nil => simp
    | cons p l ih =>
      simp only [List.map_cons, List.sum_cons, ih]
      rw [add_div, div_mul_eq_mul_div]
  rw [blendOne]
  simp only [hpairs, hne, Bool.false_eq_true, if_false, hfst]
  rw [if_pos hsum, hdiv]

/-- blendOne is invariant under a positive global rescaling of the ratio
vector, for a fully populated parameter. -/
theorem blendOne_rescale (ratios : List ℚ) (vs : List ℚ)
    (hlen : ratios.length = vs.length) (hsum : 0 < ratios.sum)
    (c : ℚ) (hc : 0 < c) :
    blendOne (ratios.map (fun r => c * r)) (vs.map some)
      = blendOne ratios (vs.map some) := by
  have hs : ∀ l : List ℚ, (l.map (fun r => c * r)).sum = c * l.sum := by
    intro l
    induction l with
    | nil => simp
    | cons a l ih => simp [ih, mul_add]
  have hlen' : (ratios.map (fun r => c * r)).length = vs.length := by
    simp [hlen]
  have hsum' : 0 < (ratios.map (fun r => c * r)).sum := by
    rw [hs]
    exact mul_pos hc hsum
  rw [blendOne_all_some _ _ hlen' hsum', blendOne_all_some _ _ hlen hsum]
  have hzip : (ratios.map (fun r => c * r)).zip vs
      = (ratios.zip vs).map (Prod.map (fun r => c * r) id) :=
    List.zip_map_left _ _ _
  have hsum2 : ∀ l : List (ℚ × ℚ),
      ((l.map (Prod.map (fun r => c * r) id)).map (fun p => p.1 * p.2)).sum
        = c * (l.map (fun p => p.1 * p.2)).sum := by
    intro l
    induction l with
    | nil => simp
    | cons p l ih =>
      simp only [List.map_cons, List.sum_cons, ih, Prod.map_fst, Prod.map_snd,
        id_eq, mul_add]
      ring_nf
  rw [hzip, hs, hsum2, mul_div_mul_left _ _ (ne_of_gt hc)]

/-- C7: for a parameter every material supplies, the blend value of
calculate_blend_parameters is the ratio-weighted average of the material
values, and it is unchanged under a positive global rescaling of the ratio
vector (the subset re-normalization divides the scale out). -/
theorem blend_parameter_weighted_average (ratios : List ℚ)
    (mp : List (String × List (Option ℚ))) (name : String) (vs : List ℚ)
    (hlook : mp.lookup name = some (vs.map some))
    (hlen : ratios.length = vs.length)
    (hsum : 0 < ratios.sum) :
    (calculate_blend_parameters ratios mp).lookup name
        = some (((ratios.zip vs).map (fun p => p.1 * p.2)).sum / ratios.sum)
    ∧ ∀ c : ℚ, 0 < c →
        (calculate_blend_parameters (ratios.map (fun r => c * r)) mp).lookup name
          = (calculate_blend_parameters ratios mp).lookup name := by
  have h1 := lookup_calculate_blend_parameters ratios mp name (vs.map some) _
    hlook (blendOne_all_some ratios vs hlen hsum)
  refine ⟨h1, fun c hc => ?_⟩
  have h2 := lookup_calculate_blend_parameters (ratios.map (fun r => c * r))
    mp name (vs.map some) _ hlook
    ((blendOne_rescale ratios vs hlen hsum c hc).trans
      (blendOne_all_some ratios vs hlen hsum))
  rw [h1, h2]

/-- Witness for C7 at the pH scenario: blend pH is 7.5 both at the equal
split and after doubling the ratio vector. -/
theorem blend_parameter_weighted_average_witness :
    ([(1:ℚ)/2, 1/2].length = [(6:ℚ), 9].length)
    ∧ ((0:ℚ) < [(1:ℚ)/2, 1/2].sum)
    ∧ (calculate_blend_parameters [1/2, 1/2] mpW).lookup "pH"
        = some ((([(1:ℚ)/2, 1/2].zip [(6:ℚ), 9]).map (fun p => p.1 * p.2)).sum
            / [(1:ℚ)/2, 1/2].sum)
    ∧ (calculate_blend_parameters ([(1:ℚ)/2, 1/2].map (fun r => 2 * r)) mpW).lookup "pH"
        = (calculate_blend_parameters [1/2, 1/2] mpW).lookup "pH" := by
  have h := blend_parameter_weighted_average [1/2, 1/2] mpW "pH" [6, 9] rfl
    (by norm_num) (by norm_num)
  exact ⟨by norm_num, by norm_num, h.1, h.2 2 (by norm_num)⟩

/-- When a dict lookup misses, no entry has that key. -/
theorem lookup_none_keys {β : Type} (name : String) :
    ∀ l : List (String × β), l.lookup name = none → ∀ p ∈ l, p.1 ≠ name := by
  intro l
  induction l with
  | nil =>
    intro _ p hp
    simp at hp
  | cons q l ih =>
    intro h p hp
    rcases q with ⟨k, v⟩
    rcases hkq : (name == k) with _ | _
    · simp only [List.lookup, hkq] at h
      rcases List.mem_cons.mp hp with rfl | hp'
      · intro hpn
        simp only at hpn
        subst hpn
        simp at hkq
      · exact ih h p hp'
    · simp only [List.lookup, hkq] at h
      simp at h

/-- A successfully built residual row is keyed by its blend entry's name. -/
theorem mkResidualEntry_parameter (tol : ℚ) (targets : List (String × Option ℚ))
    (limitsL : List (String × LimitPair)) (p : String × ℚ) (e : ResidualEntry)
    (h : mkResidualEntry tol targets limitsL p = some e) : e.parameter = p.1 := by
  simp only [mkResidualEntry] at h
  split at h
  · exact absurd h (by simp)
  · cases h
    rfl

/-- A parameter all of whose occurrences carry values that blendOne skips is
absent from the blend dict. -/
theorem lookup_blend_none (ratios : List ℚ)
    (mp : List (String × List (Option ℚ))) (name : String)
    (values : List (Option ℚ))
    (hconsist : ∀ p ∈ mp, p.1 = name → p.2 = values)
    (hbo : blendOne ratios values = none) :
    (calculate_blend_parameters ratios mp).lookup name = none := by
  induction mp with
  | nil => rfl
  | cons q mp ih =>
    obtain ⟨k, vs⟩ := q
    have htail : ∀ p ∈ mp, p.1 = name → p.2 = values :=
      fun p hp => hconsist p (List.mem_cons_of_mem _ hp)
    rw [calculate_blend_parameters, List.filterMap_cons]
    by_cases hk : k = name
    · have hvs : vs = values := hconsist (k, vs) (List.mem_cons_self _ _) hk
      simp only [hvs, hbo, Option.map_none']
      exact ih htail
    · rcases hbk : blendOne ratios vs with _ | b'
      · simp only [hbk, Option.map_none']
        exact ih htail
      · have hne : (name == k) = false :=
          beq_eq_false_iff_ne.mpr (fun h => hk h.symm)
        simp only [hbk, Option.map_some', List.lookup, hne]
        exact ih htail

/-- The objective loop ignores every target entry whose parameter is missing
from the blend dict: filtering those entries out does not change the
result. -/
theorem objGo_skip (blend : List (String × ℚ))
    (limitsL : List (String × LimitPair)) (tol : ℚ) (name : String)
    (hnone : blend.lookup name = none) :
    ∀ (ts : List (String × Option ℚ)) (acc : ℚ),
      objGo blend limitsL tol ts acc
        = objGo blend limitsL tol (ts.filter (fun p => p.1 ≠ name)) acc := by
  intro ts
  induction ts with
  | nil => intro acc; rfl
  | cons p ts ih =>
    intro acc
    obtain ⟨k, tgt⟩ := p
    by_cases hk : k = name
    · subst hk
      rw [List.filter_cons_of_neg (by simp)]
      simp only [objGo, hnone]
      exact ih acc
    · rw [List.filter_cons_of_pos (by simp [hk])]
      rw [objGo, objGo]
      rcases hl : blend.lookup k with _ | bv
      · simp only [hl]
        exact ih acc
      · simp only [hl]
        rcases tgt with _ | tv
        · rfl
        · exact ih _

/-- C9: a parameter with at least one present value whose valid-ratio mass
sums to zero is omitted from the blend dict (the re-normalization's division
by zero is guarded by dropping it), hence contributes nothing to the
objective or the residual rows, and is reported in build_result's
missing-data warning. -/
theorem blend_omits_zero_ratio_sum_parameter
    (ratios : List ℚ) (mp : List (String × List (Option ℚ))) (name : String)
    (values : List (Option ℚ)) (targets : List (String × Option ℚ))
    (limitsL : List (String × LimitPair)) (config : Config)
    (success : Bool) (rts : List ℚ) (mats : List Material)
    (rs : List ResidualEntry) (iterations : ℕ) (convergence : Bool)
    (rt : Option ℚ)
    (hconsist : ∀ p ∈ mp, p.1 = name → p.2 = values)
    (hsome : values.any Option.isSome = true)
    (hzero : ((ratios.zip values).filterMap
        (fun p => p.2.map (fun _ => p.1))).sum = 0) :
    (calculate_blend_parameters ratios mp).lookup name = none
    ∧ calculate_objective ratios mp targets limitsL config
        = calculate_objective ratios mp (targets.filter (fun p => p.1 ≠ name))
            limitsL config
    ∧ (∀ l, calculate_residuals (calculate_blend_parameters ratios mp) targets
          limitsL config = some l → ∀ e ∈ l, e.parameter ≠ name)
    ∧ (name ∈ config.selectedParameters →
        name ∈ missingParams (calculate_blend_parameters ratios mp) config
        ∧ Warning.missingData
            (missingParams (calculate_blend_parameters ratios mp) config)
          ∈ (build_result success rts mats rs
              (calculate_blend_parameters ratios mp) iterations convergence
              rt config).warnings) := by
  have hmapfst : ((ratios.zip values).filterMap
      (fun p => p.2.map (fun v => (p.1, v)))).map Prod.fst
      = (ratios.zip values).filterMap (fun p => p.2.map (fun _ => p.1)) := by
    rw [List.map_filterMap]
    congr 1
    funext p
    rcases p.2 with _ | v <;> rfl
  have hbo : blendOne ratios values = none := by
    rw [blendOne]
    by_cases he : ((ratios.zip values).filterMap
        (fun p => p.2.map (fun v => (p.1, v)))).isEmpty
    · simp [he]
    · simp [he, hmapfst, hzero]
  have hnone := lookup_blend_none ratios mp name values hconsist hbo
  refine ⟨hnone, ?_, ?_, ?_⟩
  · rw [calculate_objective, calculate_objective,
      objGo_skip (calculate_blend_parameters ratios mp) limitsL _ name hnone]
  · intro l hl e he
    rw [calculate_residuals] at hl
    rcases hm : mapOptionAll
        (mkResidualEntry (config.tolerance.getD 30) targets limitsL)
        (calculate_blend_parameters ratios mp) with _ | l0 <;> rw [hm] at hl
    · simp at hl
    · simp only [Option.map_some'] at hl
      cases hl
      have he0 := (List.mem_insertionSort residualOrder).mp he
      obtain ⟨p, hp, hpe⟩ := mapOptionAll_mem _ hm e he0
      rw [mkResidualEntry_parameter _ _ _ _ _ hpe]
      exact lookup_none_keys name _ hnone p hp
  · intro hsel
    have hmiss : name ∈ missingParams (calculate_blend_parameters ratios mp)
        config :=
      List.mem_filter.mpr ⟨hsel, by simp [hnone]⟩
    refine ⟨hmiss, ?_⟩
    have hne : (missingParams (calculate_blend_parameters ratios mp)
        config).isEmpty = false := by
      cases hmp2 : missingParams (calculate_blend_parameters ratios mp) config
      · rw [hmp2] at hmiss
        simp at hmiss
      · rfl
    simp [build_result, hne]

/-- Witness for C9: two materials, only the first supplies a value for X,
the solver puts all mass on the second; X is dropped from the blend and
reported missing. -/
theorem blend_omits_zero_ratio_sum_parameter_witness :
    ((([(0:ℚ), 1].zip [some (1:ℚ), none]).filterMap
        (fun p => p.2.map (fun _ => p.1))).sum = 0)
    ∧ (calculate_blend_parameters [0, 1] mpZ).lookup "X" = none
    ∧ "X" ∈ missingParams (calculate_blend_parameters [0, 1] mpZ) cfgZ
    ∧ Warning.missingData (missingParams (calculate_blend_parameters [0, 1] mpZ) cfgZ)
        ∈ (build_result false [0, 1] [] []
            (calculate_blend_parameters [0, 1] mpZ) 0 false none cfgZ).warnings := by
  have hz : ((([(0:ℚ), 1].zip [some (1:ℚ), none]).filterMap
      (fun p => p.2.map (fun _ => p.1))).sum = 0) := by simp
  have h := blend_omits_zero_ratio_sum_parameter [0, 1] mpZ "X"
    [some 1, none] [] [] cfgZ false [0, 1] [] [] 0 false none
    (by decide) (by decide) hz
  exact ⟨hz, h.1, (h.2.2.2 (by decide)).1, (h.2.2.2 (by decide)).2⟩

/-- The relax loop stops at the first successful tolerance and records it. -/
theorem relaxSweep_first_success (solve : ℚ → SolverResult) (t : ℚ)
    (hsucc : (solve (t * 100)).success = true) :
    ∀ (l₁ l₂ : List ℚ) (prev : SolverResult),
      (∀ s ∈ l₁, (solve (s * 100)).success = false) →
      relaxSweep solve (l₁ ++ t :: l₂) prev
        = (solve (t * 100), some (t * 100)) := by
  intro l₁
  induction l₁ with
  | nil =>
    intro l₂ prev _
    simp [relaxSweep, hsucc]
  | cons s l₁ ih =>
    intro l₂ prev hfail
    have hs : (solve (s * 100)).success = false :=
      hfail s (List.mem_cons_self _ _)
    rw [List.cons_append, relaxSweep]
    simp only [hs, Bool.false_eq_true, if_false]
    exact ih l₂ _ (fun u hu => hfail u (List.mem_cons_of_mem _ hu))

/-- When every tolerance of the sweep fails and the incoming result had
failed, the loop ends unsuccessful with no recorded relaxation. -/
theorem relaxSweep_all_fail (solve : ℚ → SolverResult) :
    ∀ (l : List ℚ) (prev : SolverResult),
      (∀ s ∈ l, (solve (s * 100)).success = false) →
      prev.success = false →
      (relaxSweep solve l prev).1.success = false
      ∧ (relaxSweep solve l prev).2 = none := by
  intro l
  induction l with
  | nil =>
    intro prev _ hp
    exact ⟨hp, rfl⟩
  | cons s l ih =>
    intro prev h hp
    have hs : (solve (s * 100)).success = false := h s (List.mem_cons_self _ _)
    rw [relaxSweep]
    simp only [hs, Bool.false_eq_true, if_false]
    exact ih _ (fun u hu => h u (List.mem_cons_of_mem _ hu)) hs

/-- When the initial solve succeeds no sweep and no global solve happen. -/
theorem runStages_initial_success (solveL solveG : Config → SolverResult)
    (cfg : Config) (h1 : (solveL cfg).success = true) :
    runStages solveL solveG cfg = (solveL cfg, none) := by
  simp [runStages, h1]

/-- When the initial solve fails and autoRelax is off, the global solver
runs directly and no relaxed tolerance is recorded. -/
theorem runStages_no_autorelax (solveL solveG : Config → SolverResult)
    (cfg : Config) (h1 : (solveL cfg).success = false)
    (h2 : cfg.autoRelax.getD true = false) :
    runStages solveL solveG cfg = (solveG cfg, none) := by
  simp [runStages, h1, h2]

/-- When the initial solve fails, autoRelax is on, and the sweep first
succeeds at tolerance `t`, the stages end with that local solve (run with
only config.tolerance replaced by t*100) and record t*100. -/
theorem runStages_sweep_success (solveL solveG : Config → SolverResult)
    (cfg : Config) (l₁ : List ℚ) (t : ℚ) (l₂ : List ℚ)
    (hsplit : sweepTolerances = l₁ ++ t :: l₂)
    (h1 : (solveL cfg).success = false)
    (h2 : cfg.autoRelax.getD true = true)
    (hfail : ∀ s ∈ l₁, (solveL (cfg.withTolerance (s * 100))).success = false)
    (hsucc : (solveL (cfg.withTolerance (t * 100))).success = true) :
    runStages solveL solveG cfg
      = (solveL (cfg.withTolerance (t * 100)), some (t * 100)) := by
  have hsw := relaxSweep_first_success
    (fun tolPct => solveL (cfg.withTolerance tolPct)) t hsucc l₁ l₂
    (solveL cfg) hfail
  simp [runStages, h1, h2, hsplit, hsw, hsucc]

/-- When the initial solve fails, autoRelax is on, and every sweep tolerance
fails, the global solver runs with the original config and no relaxed
tolerance is recorded. -/
theorem runStages_sweep_all_fail (solveL solveG : Config → SolverResult)
    (cfg : Config) (h1 : (solveL cfg).success = false)
    (h2 : cfg.autoRelax.getD true = true)
    (hall : ∀ s ∈ sweepTolerances,
      (solveL (cfg.withTolerance (s * 100))).success = false) :
    runStages solveL solveG cfg = (solveG cfg, none) := by
  have hsw := relaxSweep_all_fail
    (fun tolPct => solveL (cfg.withTolerance tolPct)) sweepTolerances
    (solveL cfg) hall h1
  simp [runStages, h1, h2, hsw.1, hsw.2]

/-- An ok outcome of optimize_blend agrees with whatever solver result and
relaxed tolerance the stages produced. -/
theorem optimize_blend_ok (solveL solveG : Config → SolverResult)
    (mats : List Material) (cfg : Config) (res : BlendResult)
    (r : SolverResult) (rt : Option ℚ)
    (hok : optimize_blend solveL solveG mats cfg = Except.ok res)
    (hst : runStages solveL solveG cfg = (r, rt)) :
    resAgrees res mats cfg r rt := by
  rw [optimize_blend] at hok
  by_cases hlen : mats.length < 2
  · rw [if_pos hlen] at hok
    exact absurd hok (by simp)
  · rw [if_neg hlen, hst] at hok
    dsimp only at hok
    rcases hres : calculate_residuals
        (calculate_blend_parameters (normalizeRatios r.x)
          (extract_material_parameters mats cfg))
        (get_targets_and_limits (extract_material_parameters mats cfg) cfg).1
        (get_targets_and_limits (extract_material_parameters mats cfg) cfg).2
        cfg with _ | rs <;> rw [hres] at hok
    · exact absurd hok (by simp)
    · injection hok with hok
      subst hok
      refine ⟨rfl, rfl, rfl, hres, ?_⟩
      intro t hrt ht0
      subst hrt
      simp [build_result, ht0]

/-- C4: the relax sweep runs only when autoRelax (default true) is on and
the initial solve failed; it tries 40, 50, 60, 80, 100 percent in order,
replacing only config.tolerance for the objective (the residual statuses
keep the original config, see resAgrees), stops at the first success,
records that value as optimizationDetails.relaxedTolerance and echoes it as
a warning; the global solver runs only when no stage succeeded; and the
final result is reported whatever its success flag says. -/
theorem optimize_blend_stage_machine
    (solveL solveG : Config → SolverResult) (mats : List Material)
    (cfg : Config) (res : BlendResult)
    (hok : optimize_blend solveL solveG mats cfg = Except.ok res) :
    ((solveL cfg).success = true → resAgrees res mats cfg (solveL cfg) none)
    ∧ ((solveL cfg).success = false → cfg.autoRelax.getD true = false →
        resAgrees res mats cfg (solveG cfg) none)
    ∧ (∀ (l₁ : List ℚ) (t : ℚ) (l₂ : List ℚ),
        sweepTolerances = l₁ ++ t :: l₂ →
        (solveL cfg).success = false → cfg.autoRelax.getD true = true →
        (∀ s ∈ l₁, (solveL (cfg.withTolerance (s * 100))).success = false) →
        (solveL (cfg.withTolerance (t * 100))).success = true →
        resAgrees res mats cfg (solveL (cfg.withTolerance (t * 100)))
            (some (t * 100))
        ∧ Warning.toleranceRelaxed (t * 100) ∈ res.warnings)
    ∧ ((solveL cfg).success = false → cfg.autoRelax.getD true = true →
        (∀ s ∈ sweepTolerances,
          (solveL (cfg.withTolerance (s * 100))).success = false) →
        resAgrees res mats cfg (solveG cfg) none) := by
  refine ⟨?_, ?_, ?_, ?_⟩
  · intro h1
    exact optimize_blend_ok solveL solveG mats cfg res _ _ hok
      (runStages_initial_success solveL solveG cfg h1)
  · intro h1 h2
    exact optimize_blend_ok solveL solveG mats cfg res _ _ hok
      (runStages_no_autorelax solveL solveG cfg h1 h2)
  · intro l₁ t l₂ hsplit h1 h2 hfail hsucc
    have hag := optimize_blend_ok solveL solveG mats cfg res _ _ hok
      (runStages_sweep_success solveL solveG cfg l₁ t l₂ hsplit h1 h2
        hfail hsucc)
    refine ⟨hag, ?_⟩
    have ht : t ∈ sweepTolerances := by
      rw [hsplit]
      exact List.mem_append_right _ (List.mem_cons_self _ _)
    have ht0 : t * 100 ≠ 0 := by
      have hall : ∀ u ∈ sweepTolerances, u * 100 ≠ 0 := by
        intro u hu
        simp only [sweepTolerances, List.mem_cons, List.not_mem_nil,
          or_false] at hu
        rcases hu with rfl | rfl | rfl | rfl | rfl <;> norm_num
      exact hall t ht
    exact hag.2.2.2.2 (t * 100) rfl ht0
  · intro h1 h2 hall
    exact optimize_blend_ok solveL solveG mats cfg res _ _ hok
      (runStages_sweep_all_fail solveL solveG cfg h1 h2 hall)

/-- Witness for C4: with an oracle that only succeeds at tolerance 50, the
initial solve fails, the sweep fails at 40, succeeds at 50, and the result
records relaxedTolerance 50 with the matching warning. -/
theorem optimize_blend_stage_machine_witness :
    optimize_blend solveSweep solveSweep [matP1, matP2] cfgP = Except.ok resP
    ∧ resP.optimizationDetails.relaxedTolerance = some ((1:ℚ)/2 * 100)
    ∧ Warning.toleranceRelaxed ((1:ℚ)/2 * 100) ∈ resP.warnings := by
  have h1 : (solveSweep cfgP).success = false := rfl
  have hfail : ∀ s ∈ [(2:ℚ)/5],
      (solveSweep (cfgP.withTolerance (s * 100))).success = false := by
    intro s hs
    rw [List.mem_singleton] at hs
    subst hs
    norm_num [solveSweep, Config.withTolerance, cfgP]
  have hsucc : (solveSweep (cfgP.withTolerance ((1:ℚ)/2 * 100))).success
      = true := by
    norm_num [solveSweep, Config.withTolerance, cfgP]
  have hok : optimize_blend solveSweep solveSweep [matP1, matP2] cfgP
      = Except.ok resP := by
    have hst := runStages_sweep_success solveSweep solveSweep cfgP [2/5] (1/2)
      [3/5, 4/5, 1] rfl h1 rfl hfail hsucc
    have hstv : runStages solveSweep solveSweep cfgP
        = ({ success := true, x := [1, 3], nit := 7 }, some 50) := by
      rw [hst]
      norm_num [solveSweep, Config.withTolerance, cfgP]
    have hmp : extract_material_parameters [matP1, matP2] cfgP
        = [("pH", [some 6, some 9])] := by
      simp [extract_material_parameters, dedupKeepFirst, matP1, matP2, cfgP,
        List.lookup, Option.join]
    have htl : get_targets_and_limits [("pH", [some 6, some 9])] cfgP
        = ([("pH", some 7)], [("pH", ⟨some (11/2), some (17/2)⟩)]) := by
      norm_num [get_targets_and_limits, resolveTarget, resolveLimits, cfgP,
        zero_seeking, bs3882_limits, List.lookup]
      decide
    have hblend : calculate_blend_parameters (normalizeRatios [1, 3])
        [("pH", [some 6, some 9])] = [("pH", 33/4)] := by
      norm_num [calculate_blend_parameters, blendOne, normalizeRatios,
        List.filterMap_cons, List.zip_cons_cons, List.zip_nil_right,
        List.zip_nil_left]
    have habs : |(5 : ℚ)/28| = 5/28 := abs_of_nonneg (by norm_num)
    have hres : calculate_residuals [("pH", (33/4 : ℚ))] [("pH", some 7)]
        [("pH", ⟨some (11/2), some (17/2)⟩)] cfgP = some [entryP] := by
      norm_num [calculate_residuals, mapOptionAll, mkResidualEntry, mkStatus,
        resResidual, pyDenom, cfgP, entryP, List.lookup, List.insertionSort,
        List.orderedInsert, habs]
    simp [optimize_blend, hstv, hmp, htl, hblend, hres, resP]
  have h := (optimize_blend_stage_machine solveSweep solveSweep [matP1, matP2]
    cfgP resP hok).2.2.1 [2/5] (1/2) [3/5, 4/5, 1] rfl h1 rfl hfail hsucc
  exact ⟨hok, h.1.2.1, h.2⟩

end BlendIQ
